import Mathlib

/-! Verification of the vispy.oogl module: reference-counted capability
enabling (push_enable / pop_enable over the module-level ENABLE_QUEUE dict),
the ext_available stub, and the GLObject base-class lifecycle (context-manager
enable/disable, exception-swallowing delete, abstract hooks). -/

/-- An underlying OpenGL call made by the module (the vispy.gl primitives). -/
inductive GLCall where
  | glEnable (enum : Nat)
  | glDisable (enum : Nat)
deriving DecidableEq

/-- Module-level state: the ENABLE_QUEUE mapping from capability enum to its
count (absent entries read as 0 via dict.get(enum, 0), so the mapping is
total with default 0; counts are Python ints, modelled as Int), together with
the trace of gl calls issued so far. -/
structure GLState where
  enableQueue : Nat → Int
  calls : List GLCall

/-- The state at module import time: ENABLE_QUEUE = {} (every capability reads
as 0) and no gl calls made. -/
def initState : GLState := { enableQueue := fun _ => 0, calls := [] }

/-- push_enable(enum): cur = ENABLE_QUEUE.get(enum, 0); if cur == 0 then
gl.glEnable(enum); ENABLE_QUEUE[enum] = cur + 1. -/
def push_enable (enum : Nat) (s : GLState) : GLState :=
  let cur := s.enableQueue enum
  { enableQueue := fun x => if x = enum then cur + 1 else s.enableQueue x,
    calls := if cur = 0 then s.calls ++ [GLCall.glEnable enum] else s.calls }

/-- pop_enable(enum): cur = ENABLE_QUEUE.get(enum, 0); if cur == 1 then
gl.glDisable(enum); ENABLE_QUEUE[enum] = max(0, cur - 1). -/
def pop_enable (enum : Nat) (s : GLState) : GLState :=
  let cur := s.enableQueue enum
  { enableQueue := fun x => if x = enum then max 0 (cur - 1) else s.enableQueue x,
    calls := if cur = 1 then s.calls ++ [GLCall.glDisable enum] else s.calls }

/-- ext_available(extension_name): returns True (for now). -/
def ext_available (extName : String) : Bool := true

/-- A call to push_enable or pop_enable on some capability. -/
inductive Op where
  | push (enum : Nat)
  | pop (enum : Nat)
deriving DecidableEq

/-- Apply one push_enable / pop_enable call to the module state. -/
def applyOp : Op → GLState → GLState
  | Op.push e => push_enable e
  | Op.pop e => pop_enable e

/-- Run a finite sequence of push_enable / pop_enable calls starting at
module load time. -/
def runOps (ops : List Op) : GLState :=
  ops.foldl (fun s op => applyOp op s) initState

/-- A call to push_enable or pop_enable on one fixed capability. -/
inductive EnableOp where
  | push
  | pop
deriving DecidableEq

/-- Apply one call on capability enum. -/
def applyEnableOp (enum : Nat) : EnableOp → GLState → GLState
  | EnableOp.push => push_enable enum
  | EnableOp.pop => pop_enable enum

/-- Run a finite sequence of push_enable / pop_enable calls on one fixed
capability, starting from module import time (entry absent, count 0). -/
def runEnableOps (enum : Nat) (ops : List EnableOp) : GLState :=
  ops.foldl (fun s op => applyEnableOp enum op s) initState

-- Helper lemmas (shared) --------------------------------------------------

lemma push_enable_queue_nonneg (e : Nat) (s : GLState)
    (h : ∀ e2, 0 ≤ s.enableQueue e2) : ∀ e2, 0 ≤ (push_enable e s).enableQueue e2 := by
  intro e2
  simp only [push_enable]
  split
  · have := h e
    omega
  · exact h e2

lemma pop_enable_queue_nonneg (e : Nat) (s : GLState)
    (h : ∀ e2, 0 ≤ s.enableQueue e2) : ∀ e2, 0 ≤ (pop_enable e s).enableQueue e2 := by
  intro e2
  simp only [pop_enable]
  split
  · omega
  · exact h e2

lemma applyOp_queue_nonneg (op : Op) (s : GLState)
    (h : ∀ e2, 0 ≤ s.enableQueue e2) : ∀ e2, 0 ≤ (applyOp op s).enableQueue e2 := by
  cases op with
  | push e => exact push_enable_queue_nonneg e s h
  | pop e => exact pop_enable_queue_nonneg e s h

lemma foldl_queue_nonneg (ops : List Op) (s : GLState)
    (h : ∀ e2, 0 ≤ s.enableQueue e2) :
    ∀ e2, 0 ≤ (ops.foldl (fun s op => applyOp op s) s).enableQueue e2 := by
  induction ops generalizing s with
  | nil => exact h
  | cons op rest ih =>
      simpa using ih (applyOp op s) (applyOp_queue_nonneg op s h)

/-- The gl calls a single step on capability e appends to the trace are
exactly one glEnable at a 0-to-positive transition of the count, exactly one
glDisable at a positive-to-0 transition, and nothing otherwise. -/
lemma step_calls (e : Nat) (op : EnableOp) (s : GLState) :
    (applyEnableOp e op s).calls = s.calls ++
      (if s.enableQueue e = 0 ∧ 0 < (applyEnableOp e op s).enableQueue e then
        [GLCall.glEnable e]
      else if 0 < s.enableQueue e ∧ (applyEnableOp e op s).enableQueue e = 0 then
        [GLCall.glDisable e]
      else []) := by
  cases op with
  | push =>
      simp only [applyEnableOp, push_enable, if_pos rfl]
      split_ifs with h1 h2 h3 h4 h5 <;> simp_all <;> omega
  | pop =>
      simp only [applyEnableOp, pop_enable, if_pos rfl]
      split_ifs with h1 h2 h3 h4 h5 <;> simp_all <;> omega

-- Claim theorems ----------------------------------------------------------

/-- Claim C2: a single push_enable call reads the current count (default 0),
issues gl.glEnable on the capability exactly when that count was 0, stores
old count + 1 for that capability, and changes no other count. -/
theorem push_enable_correct (s : GLState) (e : Nat) :
    (push_enable e s).enableQueue e = s.enableQueue e + 1
    ∧ ((push_enable e s).calls =
        if s.enableQueue e = 0 then s.calls ++ [GLCall.glEnable e] else s.calls)
    ∧ (∀ e2, e2 ≠ e → (push_enable e s).enableQueue e2 = s.enableQueue e2) := by
  refine ⟨?_, ?_, ?_⟩
  · simp [push_enable]
  · simp [push_enable]
  · intro e2 hne
    simp [push_enable, hne]

theorem push_enable_correct_witness :
    (push_enable 7 initState).enableQueue 7 = 1
    ∧ (push_enable 7 initState).calls = [GLCall.glEnable 7]
    ∧ (push_enable 7 initState).enableQueue 3 = 0 := by
  obtain ⟨h1, h2, h3⟩ := push_enable_correct initState 7
  refine ⟨?_, ?_, ?_⟩
  · simpa [initState] using h1
  · simpa [initState] using h2
  · simpa [initState] using h3 3 (by decide)

/-- Claim C3: a single pop_enable call reads the current count (default 0),
issues gl.glDisable on the capability exactly when that count was 1, stores
max(0, old count - 1) for that capability, changes no other count, and when
the count is already 0 it changes nothing and issues no gl call. -/
theorem pop_enable_correct (s : GLState) (e : Nat) :
    (pop_enable e s).enableQueue e = max 0 (s.enableQueue e - 1)
    ∧ ((pop_enable e s).calls =
        if s.enableQueue e = 1 then s.calls ++ [GLCall.glDisable e] else s.calls)
    ∧ (∀ e2, e2 ≠ e → (pop_enable e s).enableQueue e2 = s.enableQueue e2)
    ∧ (s.enableQueue e = 0 →
        (pop_enable e s).enableQueue e = s.enableQueue e
        ∧ (pop_enable e s).calls = s.calls) := by
  refine ⟨?_, ?_, ?_, ?_⟩
  · simp [pop_enable]
  · simp [pop_enable]
  · intro e2 hne
    simp [pop_enable, hne]
  · intro h0
    constructor
    · simp [pop_enable, h0]
    · simp [pop_enable, h0]

theorem pop_enable_correct_witness :
    (pop_enable 2 initState).enableQueue 2 = 0
    ∧ (pop_enable 2 initState).calls = []
    ∧ (pop_enable 2 initState).enableQueue 9 = 0 := by
  obtain ⟨h1, h2, h3, h4⟩ := pop_enable_correct initState 2
  obtain ⟨h5, h6⟩ := h4 (by simp [initState])
  refine ⟨?_, ?_, ?_⟩
  · simpa [initState] using h5
  · simpa [initState] using h6
  · simpa [initState] using h3 9 (by decide)

/-- Claim C4: over every finite sequence of push_enable / pop_enable calls in
any order (extra pop_enable calls included), every stored count stays
non-negative. -/
theorem enable_counts_nonneg (ops : List Op) (e : Nat) :
    0 ≤ (runOps ops).enableQueue e := by
  refine foldl_queue_nonneg ops initState ?_ e
  intro e2
  simp [initState]

/-- Claim C1: running any finite sequence of push_enable / pop_enable calls on
a single capability from the absent (count 0) entry, each step appends exactly
one glEnable call when the count goes from 0 to positive, exactly one
glDisable call when it goes from positive to 0, and no call at any other
step. -/
theorem push_pop_trace_per_step (e : Nat) (ops : List EnableOp) (i : Nat) :
    (runEnableOps e (ops.take (i + 1))).calls
      = (runEnableOps e (ops.take i)).calls ++
        (if (runEnableOps e (ops.take i)).enableQueue e = 0
            ∧ 0 < (runEnableOps e (ops.take (i + 1))).enableQueue e then
          [GLCall.glEnable e]
        else if 0 < (runEnableOps e (ops.take i)).enableQueue e
            ∧ (runEnableOps e (ops.take (i + 1))).enableQueue e = 0 then
          [GLCall.glDisable e]
        else []) := by
  by_cases hi : i < ops.length
  · have htake : ops.take (i + 1) = ops.take i ++ [ops.get ⟨i, hi⟩] := by
      rw [List.take_succ, List.getElem?_eq_getElem hi]
      rfl
    have hrun : runEnableOps e (ops.take (i + 1))
        = applyEnableOp e (ops.get ⟨i, hi⟩) (runEnableOps e (ops.take i)) := by
      rw [htake, runEnableOps, List.foldl_append]
      rfl
    rw [hrun]
    exact step_calls e (ops.get ⟨i, hi⟩) (runEnableOps e (ops.take i))
  · have hle : ops.length ≤ i := Nat.le_of_not_lt hi
    have h1 : ops.take i = ops := List.take_of_length_le hle
    have h2 : ops.take (i + 1) = ops := List.take_of_length_le (Nat.le_succ_of_le hle)
    rw [h1, h2]
    split_ifs with hc1 hc2 <;> first
      | (exfalso; omega)
      | simp

-- GLObject -----------------------------------------------------------------

/-- A Python exception, as far as this module can observe one. -/
inductive PyExc where
  | notImplementedError
  | attributeError
  | userError (code : Nat)
deriving DecidableEq

/-- An invocation of one of the GLObject lifecycle hooks. -/
inductive HookEvent where
  | enableHook
  | disableHook
  | deleteHook
deriving DecidableEq

/-- A GLObject instance: the _handle attribute (none when the attribute was
never assigned, as on the bare base class, which has no initializer setting
it), and the behaviour of the subclass-specific hooks _enable, _disable and
_delete when invoked (none when the hook returns normally, some exc when it
raises exc). -/
structure GLObject where
  handleAttr : Option Int
  enableImpl : Option PyExc
  disableImpl : Option PyExc
  deleteImpl : Option PyExc
deriving DecidableEq

/-- The read-only handle property: returns self._handle. -/
def GLObject.handle (o : GLObject) : Option Int := o.handleAttr

/-- Invoking self._enable(): the hook runs (one enableHook event) and either
returns normally or raises. -/
def GLObject.callEnable (o : GLObject) : List HookEvent × Option PyExc :=
  ([HookEvent.enableHook], o.enableImpl)

/-- Invoking self._disable(). -/
def GLObject.callDisable (o : GLObject) : List HookEvent × Option PyExc :=
  ([HookEvent.disableHook], o.disableImpl)

/-- Invoking self._delete(). -/
def GLObject.callDelete (o : GLObject) : List HookEvent × Option PyExc :=
  ([HookEvent.deleteHook], o.deleteImpl)

/-- The bare base-class instance: _handle was never assigned, and each of
_enable, _disable, _delete is the base-class body raise NotImplementedError(). -/
def baseGLObject : GLObject :=
  { handleAttr := none,
    enableImpl := some PyExc.notImplementedError,
    disableImpl := some PyExc.notImplementedError,
    deleteImpl := some PyExc.notImplementedError }

/-- Outcome of GLObject.delete: the updated object, the hook invocations it
made, and the exception propagated to the caller (if any). -/
structure DeleteResult where
  obj : GLObject
  events : List HookEvent
  raised : Option PyExc
deriving DecidableEq

/-- GLObject.delete: try: if self._handle > 0: self._delete() except
Exception: pass; then self._handle = 0. Reading a missing _handle raises
AttributeError inside the try, which the except clause also catches; any
exception raised by _delete is caught and discarded; in every case the
method returns normally with _handle set to 0. -/
def GLObject.delete (o : GLObject) : DeleteResult :=
  match o.handleAttr with
  | none =>
      { obj := { o with handleAttr := some 0 }, events := [], raised := none }
  | some h =>
      if 0 < h then
        let r := o.callDelete
        { obj := { o with handleAttr := some 0 }, events := r.1, raised := none }
      else
        { obj := { o with handleAttr := some 0 }, events := [], raised := none }

/-- The Python with-statement over a context manager, specialized to effects
recorded as hook events plus an optional exception: run __enter__; if it
raises, neither the body nor __exit__ runs and the exception propagates;
otherwise run the body, then always run __exit__; an exception raised by
__exit__ propagates, and otherwise (since GLObject.__exit__ returns None,
which is falsy) the exception of the body, if any, propagates. -/
def pythonWithStmt (enter body exitStep : List HookEvent × Option PyExc) :
    List HookEvent × Option PyExc :=
  match enter.2 with
  | some exc => (enter.1, some exc)
  | none =>
      match exitStep.2 with
      | some exc2 => (enter.1 ++ body.1 ++ exitStep.1, some exc2)
      | none =>
          match body.2 with
          | some exc => (enter.1 ++ body.1 ++ exitStep.1, some exc)
          | none => (enter.1 ++ body.1 ++ exitStep.1, none)

/-- Using a GLObject as a context manager: __enter__ calls self._enable() and
returns self; __exit__ calls self._disable() and returns None. -/
def withGLObject (o : GLObject) (body : List HookEvent × Option PyExc) :
    List HookEvent × Option PyExc :=
  pythonWithStmt o.callEnable body o.callDisable

-- GLObject lifecycle over sequences of operations --------------------------

/-- Modelled from the spec: the leaf wrapper classes (buffers, textures,
shaders, programs) live in submodules that are not part of this package
source; per the spec, a freshly constructed wrapper is Unallocated with
handle 0, its hooks being whatever the subclass implements. -/
def newWrapper (eI dI delI : Option PyExc) : GLObject :=
  { handleAttr := some 0, enableImpl := eI, disableImpl := dI, deleteImpl := delI }

/-- Modelled from the spec: leaf wrappers allocate lazily: the first operation
that needs a real resource, finding the handle still 0, creates the
underlying object and stores its (non-zero) handle; later uses leave the
handle alone. -/
def lazyAllocate (newHandle : Int) (o : GLObject) : GLObject :=
  if o.handleAttr = some 0 then { o with handleAttr := some newHandle } else o

/-- An operation in the life of a wrapper: a first-use allocation (with the
handle the underlying API hands back) or an explicit delete. -/
inductive LifeOp where
  | use (newHandle : Int)
  | deleteOp
deriving DecidableEq

/-- A LifeOp is well-formed when the handle the underlying API returned for an
allocation is positive (the spec: 0 means not yet allocated, allocation
yields a non-zero handle). -/
def validLifeOp : LifeOp → Bool
  | LifeOp.use h => decide (0 < h)
  | LifeOp.deleteOp => true

/-- Apply one life-cycle operation to a wrapper. -/
def applyLife : LifeOp → GLObject → GLObject
  | LifeOp.use h, o => lazyAllocate h o
  | LifeOp.deleteOp, o => (GLObject.delete o).obj

/-- Run a sequence of life-cycle operations on a wrapper. -/
def runLife (ops : List LifeOp) (o : GLObject) : GLObject :=
  ops.foldl (fun s op => applyLife op s) o

/-- The wrapper states of the spec state machine: Unallocated and Deleted
read handle 0, Allocated reads a positive handle; nothing else occurs. -/
def inMachine (o : GLObject) : Prop :=
  ∃ h, o.handle = some h ∧ 0 ≤ h

-- Helper lemmas for GLObject ----------------------------------------------

lemma delete_handle_zero (o : GLObject) :
    (GLObject.delete o).obj.handleAttr = some 0 := by
  cases ho : o.handleAttr with
  | none => simp [GLObject.delete, ho]
  | some h => by_cases hp : 0 < h <;> simp [GLObject.delete, ho, hp]

lemma delete_of_handle_zero (o : GLObject) (h : o.handleAttr = some 0) :
    GLObject.delete o = { obj := o, events := [], raised := none } := by
  obtain ⟨ha, e1, d1, dd1⟩ := o
  simp only at h
  subst h
  simp [GLObject.delete]

lemma delete_events_cases (o : GLObject) :
    (GLObject.delete o).events = [] ∨ (GLObject.delete o).events = [HookEvent.deleteHook] := by
  cases ho : o.handleAttr with
  | none => simp [GLObject.delete, ho]
  | some h =>
      by_cases hp : 0 < h <;> simp [GLObject.delete, GLObject.callDelete, ho, hp]

lemma applyLife_inMachine (op : LifeOp) (o : GLObject) (hv : validLifeOp op = true)
    (h : inMachine o) : inMachine (applyLife op o) := by
  cases op with
  | use hnew =>
      simp only [validLifeOp, decide_eq_true_eq] at hv
      obtain ⟨k, hk, hk0⟩ := h
      simp only [applyLife, lazyAllocate]
      by_cases h0 : o.handleAttr = some 0
      · rw [if_pos h0]
        exact ⟨hnew, rfl, le_of_lt hv⟩
      · rw [if_neg h0]
        exact ⟨k, hk, hk0⟩
  | deleteOp =>
      refine ⟨0, ?_, le_refl 0⟩
      simpa [GLObject.handle] using delete_handle_zero o

lemma runLife_inMachine (ops : List LifeOp) (o : GLObject)
    (hv : ops.all validLifeOp = true) (h : inMachine o) :
    inMachine (runLife ops o) := by
  induction ops generalizing o with
  | nil => exact h
  | cons op rest ih =>
      rw [List.all_cons, Bool.and_eq_true] at hv
      simpa [runLife] using ih (applyLife op o) hv.2 (applyLife_inMachine op o hv.1 h)

-- Claim theorems (GLObject) -----------------------------------------------

/-- Claim C5: using a GLObject whose enable hook succeeds as a scoped-enable
block invokes the _enable hook on entry and the _disable hook exactly once on
every exit path, whether or not the body raises; when the disable hook also
succeeds, the body outcome (normal or exception) is what propagates. -/
theorem scoped_enable_always_disables (o : GLObject) (bodyEvents : List HookEvent)
    (bodyExc : Option PyExc) (h : o.enableImpl = none) :
    (withGLObject o (bodyEvents, bodyExc)).1
      = HookEvent.enableHook :: (bodyEvents ++ [HookEvent.disableHook])
    ∧ (withGLObject o (bodyEvents, bodyExc)).1.count HookEvent.disableHook
      = bodyEvents.count HookEvent.disableHook + 1
    ∧ (o.disableImpl = none → (withGLObject o (bodyEvents, bodyExc)).2 = bodyExc) := by
  have hev : (withGLObject o (bodyEvents, bodyExc)).1
      = HookEvent.enableHook :: (bodyEvents ++ [HookEvent.disableHook]) := by
    simp only [withGLObject, pythonWithStmt, GLObject.callEnable, GLObject.callDisable, h]
    cases hd : o.disableImpl <;> cases bodyExc <;> simp
  refine ⟨hev, ?_, ?_⟩
  · rw [hev]
    simp [List.count_cons, List.count_append]
  · intro hd
    simp only [withGLObject, pythonWithStmt, GLObject.callEnable, GLObject.callDisable, h, hd]
    cases bodyExc <;> simp

theorem scoped_enable_always_disables_witness :
    (newWrapper none none none).enableImpl = none
    ∧ (withGLObject (newWrapper none none none) ([], some (PyExc.userError 1))).1
      = [HookEvent.enableHook, HookEvent.disableHook]
    ∧ (withGLObject (newWrapper none none none) ([], some (PyExc.userError 1))).2
      = some (PyExc.userError 1) := by
  obtain ⟨h1, h2, h3⟩ :=
    scoped_enable_always_disables (newWrapper none none none) []
      (some (PyExc.userError 1)) rfl
  exact ⟨rfl, by simpa using h1, h3 rfl⟩

/-- Claim C6: GLObject.delete never propagates an exception: whatever the
_delete hook does and whatever the handle attribute holds (including a missing
attribute), the call returns normally with no exception raised and the handle
set to 0. -/
theorem delete_never_raises (o : GLObject) :
    (GLObject.delete o).raised = none
    ∧ (GLObject.delete o).obj.handle = some 0 := by
  refine ⟨?_, ?_⟩
  · cases ho : o.handleAttr with
    | none => simp [GLObject.delete, ho]
    | some h => by_cases hp : 0 < h <;> simp [GLObject.delete, ho, hp]
  · simpa [GLObject.handle] using delete_handle_zero o

/-- Claim C7: delete is idempotent: a second delete right after a first one
invokes no hook, leaves the object unchanged, and across both calls the
_delete hook was invoked at most once. -/
theorem delete_idempotent (o : GLObject) :
    ((GLObject.delete o).obj.delete).events = []
    ∧ ((GLObject.delete o).obj.delete).obj = (GLObject.delete o).obj
    ∧ ((GLObject.delete o).events
        ++ ((GLObject.delete o).obj.delete).events).count HookEvent.deleteHook ≤ 1 := by
  have h2 : (GLObject.delete o).obj.delete
      = { obj := (GLObject.delete o).obj, events := [], raised := none } :=
    delete_of_handle_zero (GLObject.delete o).obj (delete_handle_zero o)
  refine ⟨by rw [h2], by rw [h2], ?_⟩
  rw [h2]
  rcases delete_events_cases o with h3 | h3 <;> simp [h3]

/-- Claim C9: on the bare base class, each of the abstract hooks _enable,
_disable and _delete raises NotImplementedError at the point of call, with no
fallback behaviour. -/
theorem base_hooks_not_implemented :
    baseGLObject.callEnable = ([HookEvent.enableHook], some PyExc.notImplementedError)
    ∧ baseGLObject.callDisable = ([HookEvent.disableHook], some PyExc.notImplementedError)
    ∧ baseGLObject.callDelete = ([HookEvent.deleteHook], some PyExc.notImplementedError) :=
  ⟨rfl, rfl, rfl⟩

/-- Claim C8: a wrapper reads handle 0 before its first allocation-triggering
use, a positive handle right after a well-formed allocation, handle 0 again
after delete, and under any sequence of well-formed uses and deletes it stays
inside the Unallocated / Allocated / Deleted machine (handle present and
non-negative). -/
theorem glObject_handle_lifecycle (eI dI delI : Option PyExc) (ops : List LifeOp)
    (hvalid : ops.all validLifeOp = true) :
    (newWrapper eI dI delI).handle = some 0
    ∧ (∀ (o : GLObject) (hnew : Int), 0 < hnew → o.handle = some 0 →
        (applyLife (LifeOp.use hnew) o).handle = some hnew)
    ∧ (∀ o : GLObject, (applyLife LifeOp.deleteOp o).handle = some 0)
    ∧ inMachine (runLife ops (newWrapper eI dI delI)) := by
  refine ⟨rfl, ?_, ?_, ?_⟩
  · intro o hnew hpos h0
    simp only [GLObject.handle] at h0
    simp [applyLife, lazyAllocate, GLObject.handle, h0]
  · intro o
    simpa [GLObject.handle] using delete_handle_zero o
  · exact runLife_inMachine ops (newWrapper eI dI delI) hvalid ⟨0, rfl, le_refl 0⟩

theorem glObject_handle_lifecycle_witness :
    ([LifeOp.use 5, LifeOp.deleteOp].all validLifeOp = true)
    ∧ inMachine (runLife [LifeOp.use 5, LifeOp.deleteOp] (newWrapper none none none)) := by
  refine ⟨by decide, ?_⟩
  exact (glObject_handle_lifecycle none none none [LifeOp.use 5, LifeOp.deleteOp]
    (by decide)).2.2.2

/-- Claim C10: ext_available returns True for every extension name. -/
theorem ext_available_always_true (extName : String) :
    ext_available extName = true := rfl
